import Mathlib

/-!
Verification development for the EO-page-ips repository (src/scan_ips.py and
src/scan_freecn.py).  The two scripts are structurally identical scanners that
differ only in the probed `Host` header, the expected redirect target URL and
the way the address list is produced (a hard-coded range versus a range file).
The shallow embedding below models both at once: the target redirect URL is a
parameter of every operation, and the two concrete URL literals from the
sources are provided as named constants.

Modelling conventions:
* An HTTP outcome is `Option Response`: `some r` is a received response,
  `none` is any raised exception (timeout, connection error, ...).  Of the
  response headers only the `Location` entry matters to the code, so headers
  are embedded as `location : Option String` (`none` = header absent).
* Python character-level string operations (`split`, `strip`, `int`) are
  embedded as structurally recursive functions over `String.data` so that all
  definitions evaluate by kernel reduction.
* Completion order of `asyncio.as_completed` / `concurrent.futures.as_completed`
  is nondeterministic; it is modelled as an explicit list parameter that
  theorems constrain to be a permutation of the submitted addresses.
* Wall-clock times are embedded as rationals, Python `float` arithmetic being
  exact on the properties at stake (signs, zero tests, divisions).
-/

namespace EOScan

/-- The redirect target checked by `src/scan_ips.py` (lines 59, 168). -/
def edgeoneTarget : String := "https://edgeone.ai/products/pages"

/-- The redirect target checked by `src/scan_freecn.py` (lines 59, 192). -/
def freecnTarget : String := "https://www.gov.cn/"

/-- The part of an HTTP response inspected by the scanners: the status code
and the optional `Location` header (`none` when the header is absent). -/
structure Response where
  status_code : Nat
  location : Option String
deriving DecidableEq

/-- `IPScanner.check_ip` (src/scan_ips.py lines 47-65, src/scan_freecn.py
lines 47-65).  The `result` argument is the outcome of the single
`client.get` call: `some response`, or `none` when any exception was raised
(the `except` clause catches every exception and returns
`(ip, "unreachable")`).  Returns the `(ip, status)` tuple of the source. -/
def check_ip (target ip : String) (result : Option Response) : String × String :=
  match result with
  | some response =>
    if response.status_code == 302 && response.location.isSome
        && response.location == some target then
      (ip, "available")
    else
      (ip, "unreachable")
  | none => (ip, "unreachable")

/-- Helper for `splitOnChar`: accumulates the current chunk (reversed). -/
def splitOnCharAux (c : Char) : List Char → List Char → List (List Char)
  | [], acc => [acc.reverse]
  | x :: xs, acc =>
    if x = c then acc.reverse :: splitOnCharAux c xs []
    else splitOnCharAux c xs (x :: acc)

/-- Python's `str.split(sep)` for a one-character separator, on the
character list of a string. -/
def splitOnChar (c : Char) (s : List Char) : List (List Char) :=
  splitOnCharAux c s []

/-- Python's `int(...)` on a string of decimal digits (the only inputs the
scripts feed to it). -/
def digitsToNat (l : List Char) : Nat :=
  l.foldl (fun n ch => n * 10 + (ch.toNat - 48)) 0

/-- The sort key of `main` (src/scan_ips.py line 226, src/scan_freecn.py
line 270): `[int(part) for part in ip.split('.')]`. -/
def ipKey (ip : String) : List Nat :=
  (splitOnChar '.' ip.data).map digitsToNat

/-- Python's lexicographic comparison of two integer lists, as performed on
the sort keys by `list.sort(key=...)`. -/
def keyLE : List Nat → List Nat → Bool
  | [], _ => true
  | _ :: _, [] => false
  | a :: as, b :: bs =>
    if a < b then true else if b < a then false else keyLE as bs

/-- The ordering used on addresses by the final sort: keys compared
component-wise as integers. -/
def ipLE (a b : String) : Prop := keyLE (ipKey a) (ipKey b) = true

instance : DecidableRel ipLE := fun _ _ => decEq _ _

instance : IsTotal String ipLE := by
  constructor
  suffices h : ∀ x y : List Nat, keyLE x y = true ∨ keyLE y x = true by
    intro a b
    exact h (ipKey a) (ipKey b)
  intro x
  induction x with
  | nil => intro y; left; rfl
  | cons a as ih =>
    intro y
    cases y with
    | nil => right; rfl
    | cons b bs =>
      rcases Nat.lt_trichotomy a b with hab | hab | hab
      · left; simp [keyLE, hab]
      · subst hab
        rcases ih bs with h | h
        · left; simp [keyLE, h]
        · right; simp [keyLE, h]
      · right; simp [keyLE, hab]

instance : IsTrans String ipLE := by
  constructor
  suffices h : ∀ x y z : List Nat,
      keyLE x y = true → keyLE y z = true → keyLE x z = true by
    intro a b c
    exact h (ipKey a) (ipKey b) (ipKey c)
  intro x
  induction x with
  | nil => intro y z _ _; rfl
  | cons a as ih =>
    intro y z hxy hyz
    cases y with
    | nil => simp [keyLE] at hxy
    | cons b bs =>
      cases z with
      | nil => simp [keyLE] at hyz
      | cons c cs =>
        simp only [keyLE] at hxy hyz ⊢
        rcases Nat.lt_trichotomy a b with hab | hab | hab
        · rcases Nat.lt_trichotomy b c with hbc | hbc | hbc
          · simp [Nat.lt_trans hab hbc]
          · subst hbc; simp [hab]
          · simp [Nat.lt_asymm hbc, hbc] at hyz
        · subst hab
          simp only [Nat.lt_irrefl, if_false] at hxy
          rcases Nat.lt_trichotomy a c with hac | hac | hac
          · simp [hac]
          · subst hac
            simp only [Nat.lt_irrefl, if_false] at hyz ⊢
            exact ih _ _ hxy hyz
          · simp [Nat.lt_asymm hac, hac] at hyz
        · simp [Nat.lt_asymm hab, hab] at hxy

/-- The final sort of `main` (`available_ips.sort(key=...)`): a stable sort
of the address list by `ipKey` compared lexicographically.  Python's
`list.sort` is a stable comparison sort; it is embedded as insertion sort,
which is also stable. -/
def sortIPs (ips : List String) : List String :=
  ips.insertionSort ipLE

/-- Sortedness of an address list under the numeric component order. -/
def ipSorted (l : List String) : Prop := l.Sorted ipLE

instance (l : List String) : Decidable (ipSorted l) :=
  List.decidableSorted l

/-- The mutable accumulator of `scan_network` (src/scan_ips.py lines 128-146,
src/scan_freecn.py lines 152-170): the `completed_count` counter and the
append-only `available_ips` list. -/
structure ScanState where
  completed : Nat
  available : List String
deriving DecidableEq

/-- One iteration of the `as_completed` loop body of `scan_network`:
increment `completed_count`, and append the address when its verdict string
is `"available"`. -/
def scanStep (s : ScanState) (r : String × String) : ScanState :=
  { completed := s.completed + 1
    available := if r.2 == "available" then s.available ++ [r.1] else s.available }

/-- The verdicts produced for the scheduled probe tasks, listed in the
nondeterministic completion order `order` delivered by
`asyncio.as_completed`.  `probe ip` is the HTTP outcome observed for `ip`. -/
def scanResults (target : String) (probe : String → Option Response)
    (order : List String) : List (String × String) :=
  order.map (fun ip => check_ip target ip (probe ip))

/-- `scan_network` (src/scan_ips.py lines 114-150, src/scan_freecn.py lines
142-174): fold the completion-order verdicts into the scan state, starting
from `completed_count = 0` and an empty `available_ips`. -/
def scan_network (target : String) (probe : String → Option Response)
    (order : List String) : ScanState :=
  (scanResults target probe order).foldl scanStep ⟨0, []⟩

/-- The intermediate scan state after the first `k` completions; used to
state the in-loop invariants. -/
def scanStateAt (target : String) (probe : String → Option Response)
    (order : List String) (k : Nat) : ScanState :=
  ((scanResults target probe order).take k).foldl scanStep ⟨0, []⟩

/-- `verify_single` inside `verify_redirects` (src/scan_ips.py lines 157-171,
src/scan_freecn.py lines 181-195): one `requests.get` with redirects
disabled; returns `(ip, True)` exactly when the status is 302, a `Location`
header is present and it equals the target; every other path, including any
exception (`result = none`), falls through to `return ip, False`. -/
def verify_single (target ip : String) (result : Option Response) : String × Bool :=
  match result with
  | some response =>
    if response.status_code == 302 && response.location.isSome then
      (ip, response.location == some target)
    else
      (ip, false)
  | none => (ip, false)

/-- The `(ip, bool)` results collected by the `as_completed` loop of
`verify_redirects`, in thread-pool completion order `vorder` (one future,
hence one record, per submitted address). -/
def verificationRecords (target : String) (probe : String → Option Response)
    (vorder : List String) : List (String × Bool) :=
  vorder.map (fun ip => verify_single target ip (probe ip))

/-- `verify_redirects` (src/scan_ips.py lines 152-189, src/scan_freecn.py
lines 176-213): the addresses whose record is `True`, appended in completion
order. -/
def verify_redirects (target : String) (probe : String → Option Response)
    (vorder : List String) : List String :=
  ((verificationRecords target probe vorder).filter (fun r => r.2)).map Prod.fst

/-- The verification sample taken by `main`: `available_ips[:10]` after the
numeric sort (src/scan_ips.py line 233, src/scan_freecn.py lines 277-278,
where `verify_count = min(10, len(available_ips))` makes the same slice). -/
def sample (avail : List String) : List String :=
  (sortIPs avail).take 10

/-- The two output sequences handed to `save_results` by `main`:
`available_ips.txt` (always) and `verified_ips.txt` (only when at least one
address is available). -/
structure MainOutput where
  primary : List String
  verified : Option (List String)
deriving DecidableEq

/-- The result-producing tail of `main` (src/scan_ips.py lines 223-234,
src/scan_freecn.py lines 267-279): sort the available list numerically, and
when it is non-empty verify the first-10 sample.  `vorder` is the completion
order of the sampled futures (theorems constrain it to a permutation of
`sample avail`); `probe` is the outcome of each re-probe request. -/
def main_run (target : String) (avail : List String)
    (probe : String → Option Response) (vorder : List String) : MainOutput :=
  let sorted := sortIPs avail
  { primary := sorted
    verified := if sorted.isEmpty then none else some (verify_redirects target probe vorder) }

/-- The derived figures of `ProgressReporter._report_progress`
(src/scan_ips.py lines 91-112, src/scan_freecn.py lines 91-112). -/
structure ProgressReport where
  recent_speed : ℚ
  avg_speed : ℚ
  eta_minutes : ℚ
deriving DecidableEq

/-- `ProgressReporter._report_progress`: speeds in IPs/minute with explicit
zero-interval guards, and
`eta_minutes = remaining_ips / max(avg_speed, 1) if avg_speed > 0 else 0`.
Times are in seconds. -/
def report_progress (total_ips completed last_completed : Nat)
    (start_time last_report_time current_time : ℚ) : ProgressReport :=
  let elapsed_minutes := (current_time - last_report_time) / 60
  let recent_completed := (completed : ℚ) - (last_completed : ℚ)
  let recent_speed := if 0 < elapsed_minutes then recent_completed / elapsed_minutes else 0
  let total_elapsed := (current_time - start_time) / 60
  let avg_speed := if 0 < total_elapsed then (completed : ℚ) / total_elapsed else 0
  let remaining_ips := (total_ips : ℚ) - (completed : ℚ)
  let eta_minutes := if 0 < avg_speed then remaining_ips / max avg_speed 1 else 0
  { recent_speed := recent_speed, avg_speed := avg_speed, eta_minutes := eta_minutes }

/-- The ETA line is printed exactly when `eta_minutes > 0`
(src/scan_ips.py lines 109-110). -/
def etaShown (r : ProgressReport) : Bool := decide (0 < r.eta_minutes)

/-- Python's `str.strip()`: drop whitespace from both ends. -/
def pyStrip (s : List Char) : List Char :=
  ((s.dropWhile Char.isWhitespace).reverse.dropWhile Char.isWhitespace).reverse

/-- One dotted-decimal component as accepted by `ipaddress`: a non-empty
all-digit string without a leading zero (unless it is exactly `"0"`), of
value at most 255. -/
def parseOctet : List Char → Option Nat
  | [] => none
  | c :: cs =>
    if (c :: cs).all Char.isDigit then
      if c = '0' ∧ cs ≠ [] then none
      else
        let n := digitsToNat (c :: cs)
        if n ≤ 255 then some n else none
    else none

/-- A dotted-quad IPv4 address as a 32-bit number. -/
def parseIPv4 (s : List Char) : Option Nat :=
  match (splitOnChar '.' s).map parseOctet with
  | [some a, some b, some c, some d] => some (((a * 256 + b) * 256 + c) * 256 + d)
  | _ => none

/-- The mask-length part after the slash: digits only (as in
`ipaddress._prefix_from_prefix_string`). -/
def parseMaskLen (l : List Char) : Option Nat :=
  if l ≠ [] ∧ l.all Char.isDigit then some (digitsToNat l) else none

/-- Models `ipaddress.ip_network` in its default strict mode, as called by
`parse_ranges` (src/scan_freecn.py line 133) and `scan_network`
(src/scan_ips.py line 116), for the dotted-quad and dotted-quad/length
input forms (the netmask-string form is not modelled): returns the
`(network-number, mask-length)` pair, and `none` (a raised `ValueError`) for
malformed text, a length above 32, or any set host bit below the mask. -/
def ip_network (s : List Char) : Option (Nat × Nat) :=
  match splitOnChar '/' s with
  | [addr] => (parseIPv4 addr).map (fun a => (a, 32))
  | [addr, m] =>
    match parseIPv4 addr, parseMaskLen m with
    | some a, some n =>
      if n ≤ 32 ∧ a % 2 ^ (32 - n) = 0 then some (a, n) else none
    | _, _ => none
  | _ => none

/-- `network.hosts()`: all usable host numbers of the network.  For mask
lengths up to 30 the network and broadcast numbers are excluded; `/31`
yields both numbers and `/32` the single number (Python's special cases). -/
def hostsOf (net maskLen : Nat) : List Nat :=
  if maskLen ≤ 30 then (List.range (2 ^ (32 - maskLen) - 2)).map (fun i => net + 1 + i)
  else if maskLen = 31 then [net, net + 1]
  else [net]

/-- `parse_ranges` (src/scan_freecn.py lines 127-140): expand each range,
skipping (with a report) any line whose `ip_network` raises `ValueError`.
Addresses are kept as 32-bit numbers; the source renders each one through
`str(ip)`, an injective formatting step. -/
def parse_ranges (ranges : List String) : List Nat :=
  ranges.foldl
    (fun acc r =>
      match ip_network (pyStrip r.data) with
      | some (net, maskLen) => acc ++ hostsOf net maskLen
      | none => acc)
    []

/-- The contribution of one range line to `parse_ranges`: its host list,
or nothing when the line is malformed. -/
def rangeHosts (r : String) : List Nat :=
  match ip_network (pyStrip r.data) with
  | some (net, maskLen) => hostsOf net maskLen
  | none => []

/-! Helper lemmas about the embedded operations. -/

theorem check_ip_fst (target ip : String) (result : Option Response) :
    (check_ip target ip result).1 = ip := by
  cases result with
  | none => rfl
  | some response =>
    simp only [check_ip]
    split <;> rfl

theorem verify_single_fst (target ip : String) (result : Option Response) :
    (verify_single target ip result).1 = ip := by
  cases result with
  | none => rfl
  | some response =>
    simp only [verify_single]
    split <;> rfl

theorem scanResults_map_fst (target : String) (probe : String → Option Response)
    (order : List String) : (scanResults target probe order).map Prod.fst = order := by
  rw [scanResults, List.map_map]
  have h : (Prod.fst ∘ fun ip => check_ip target ip (probe ip)) = id :=
    funext fun ip => check_ip_fst target ip (probe ip)
  rw [h, List.map_id]

theorem verificationRecords_map_fst (target : String) (probe : String → Option Response)
    (vorder : List String) :
    (verificationRecords target probe vorder).map Prod.fst = vorder := by
  rw [verificationRecords, List.map_map]
  have h : (Prod.fst ∘ fun ip => verify_single target ip (probe ip)) = id :=
    funext fun ip => verify_single_fst target ip (probe ip)
  rw [h, List.map_id]

theorem foldl_scanStep_completed (rs : List (String × String)) (s : ScanState) :
    (rs.foldl scanStep s).completed = s.completed + rs.length := by
  induction rs generalizing s with
  | nil => simp
  | cons r rs ih =>
    rw [List.foldl_cons, ih]
    simp only [scanStep, List.length_cons]
    omega

theorem foldl_scanStep_available (rs : List (String × String)) (s : ScanState) :
    (rs.foldl scanStep s).available
      = s.available ++ (rs.filter (fun r => r.2 == "available")).map Prod.fst := by
  induction rs generalizing s with
  | nil => simp
  | cons r rs ih =>
    rw [List.foldl_cons, ih]
    by_cases h : r.2 == "available"
    · simp [scanStep, h, List.filter_cons]
    · simp [scanStep, h, List.filter_cons]

theorem scan_network_available_eq (target : String) (probe : String → Option Response)
    (order : List String) :
    (scan_network target probe order).available
      = ((scanResults target probe order).filter (fun r => r.2 == "available")).map Prod.fst := by
  rw [scan_network, foldl_scanStep_available]
  rfl

theorem scan_network_available_sublist (target : String) (probe : String → Option Response)
    (order : List String) :
    (scan_network target probe order).available.Sublist order := by
  rw [scan_network_available_eq]
  have h1 := List.Sublist.map Prod.fst
    (List.filter_sublist (l := scanResults target probe order)
      (p := fun r => r.2 == "available"))
  rwa [scanResults_map_fst] at h1

theorem verify_redirects_eq_filter (target : String) (probe : String → Option Response)
    (vorder : List String) :
    verify_redirects target probe vorder
      = vorder.filter (fun ip => (verify_single target ip (probe ip)).2) := by
  rw [verify_redirects, verificationRecords, List.filter_map, List.map_map]
  have h : (Prod.fst ∘ fun ip => verify_single target ip (probe ip)) = id :=
    funext fun ip => verify_single_fst target ip (probe ip)
  rw [h, List.map_id]
  rfl

theorem parse_ranges_eq (ranges : List String) :
    parse_ranges ranges = (ranges.map rangeHosts).flatten := by
  suffices h : ∀ acc : List Nat,
      ranges.foldl
        (fun acc r =>
          match ip_network (pyStrip r.data) with
          | some (net, maskLen) => acc ++ hostsOf net maskLen
          | none => acc)
        acc = acc ++ (ranges.map rangeHosts).flatten by
    simpa using h []
  induction ranges with
  | nil => intro acc; simp
  | cons r rs ih =>
    intro acc
    rw [List.foldl_cons, ih, List.map_cons, List.flatten_cons]
    have h2 : (match ip_network (pyStrip r.data) with
        | some (net, maskLen) => acc ++ hostsOf net maskLen
        | none => acc) = acc ++ rangeHosts r := by
      rw [rangeHosts]
      rcases hn : ip_network (pyStrip r.data) with _ | ⟨net, maskLen⟩ <;> simp
    rw [h2, List.append_assoc]

/-- C1: `check_ip` returns the verdict `"available"` iff the HTTP response
arrived (no exception), has status code exactly 302, and carries a
`Location` header byte-for-byte equal to the configured target URL; every
other outcome — another status, a missing or mismatched header, or any
exception (`result = none`) — yields `"unreachable"`, and the probe is a
total function (it never raises: every outcome is one of the two verdict
strings). -/
theorem check_ip_classification (target ip : String) (result : Option Response) :
    ((check_ip target ip result).2 = "available" ↔
      ∃ response, result = some response ∧ response.status_code = 302 ∧
        response.location = some target) ∧
    (check_ip target ip result).1 = ip ∧
    ((check_ip target ip result).2 = "available" ∨
      (check_ip target ip result).2 = "unreachable") := by
  refine ⟨?_, check_ip_fst target ip result, ?_⟩
  · cases result with
    | none => simp [check_ip]
    | some response =>
      simp only [check_ip]
      by_cases h : response.status_code == 302 && response.location.isSome
          && response.location == some target
      · rw [if_pos h]
        simp only [Bool.and_eq_true, beq_iff_eq] at h
        simp only [Option.some.injEq]
        constructor
        · intro _
          exact ⟨response, rfl, h.1.1, h.2⟩
        · intro _; trivial
      · rw [if_neg h]
        simp only [Bool.and_eq_true, beq_iff_eq, not_and] at h
        constructor
        · intro habs; simp at habs
        · rintro ⟨r2, hr2, hs, hl⟩
          obtain rfl : response = r2 := by injection hr2
          exact absurd (h ⟨hs, by simp [hl]⟩ hl).elim id
  · cases result with
    | none => right; rfl
    | some response =>
      simp only [check_ip]
      split
      · left; rfl
      · right; rfl

/-- C2: the final primary output is a permutation of the available-address
list (no additions or removals), sorted by comparing the dotted-decimal
components as integers in order; in particular `"10.0.0.2"` sorts before
`"10.0.0.10"`. -/
theorem primary_output_sorted_perm (avail : List String) :
    (sortIPs avail).Perm avail ∧
    ipSorted (sortIPs avail) ∧
    sortIPs ["10.0.0.10", "10.0.0.2"] = ["10.0.0.2", "10.0.0.10"] :=
  ⟨List.perm_insertionSort ipLE avail, List.sorted_insertionSort ipLE avail, by decide⟩

/-- C3 (amended): after the scan loop the completed count equals the number
of input addresses, throughout the loop the completed count never exceeds
that total, the available list is a subset of the input addresses, and —
provided the input address list itself has no duplicates — no address
appears in the available list more than once.  (`order` is the completion
order of the probe tasks, a permutation of the input list.) -/
theorem scan_network_invariants (target : String) (probe : String → Option Response)
    (ips order : List String) (h : order.Perm ips) :
    (scan_network target probe order).completed = ips.length ∧
    (∀ k, (scanStateAt target probe order k).completed ≤ ips.length) ∧
    (∀ ip ∈ (scan_network target probe order).available, ip ∈ ips) ∧
    (ips.Nodup → (scan_network target probe order).available.Nodup) := by
  have hlen : order.length = ips.length := h.length_eq
  have hsub := scan_network_available_sublist target probe order
  refine ⟨?_, ?_, ?_, ?_⟩
  · rw [scan_network, foldl_scanStep_completed]
    simp [scanResults, hlen]
  · intro k
    rw [scanStateAt, foldl_scanStep_completed]
    simp only [List.length_take, List.length_map, scanResults]
    omega
  · intro ip hip
    exact (h.mem_iff).mp (hsub.subset hip)
  · intro hnd
    exact ((h.nodup_iff).mpr hnd).sublist hsub

/-- C3 (counterexample to the claim as stated): with the duplicate input
address list `["1.1.1.1", "1.1.1.1"]` (producible by overlapping CIDR
ranges) and a probe that answers the target redirect for every request, the
scan loop appends the same address twice, so the available list is not
duplicate-free. -/
theorem scan_network_duplicate_counterexample :
    (["1.1.1.1", "1.1.1.1"] : List String).Perm ["1.1.1.1", "1.1.1.1"] ∧
    (scan_network edgeoneTarget (fun _ => some ⟨302, some edgeoneTarget⟩)
        ["1.1.1.1", "1.1.1.1"]).available = ["1.1.1.1", "1.1.1.1"] ∧
    ¬ (scan_network edgeoneTarget (fun _ => some ⟨302, some edgeoneTarget⟩)
        ["1.1.1.1", "1.1.1.1"]).available.Nodup := by
  refine ⟨by decide, by decide, by decide⟩

/-- C3 witness: the invariants at a concrete one-address scan whose probe
times out. -/
theorem scan_network_invariants_witness :
    (["1.2.3.4"] : List String).Perm ["1.2.3.4"] ∧
    (scan_network edgeoneTarget (fun _ => none) ["1.2.3.4"]).completed
      = (["1.2.3.4"] : List String).length ∧
    ((["1.2.3.4"] : List String).Nodup →
      (scan_network edgeoneTarget (fun _ => none) ["1.2.3.4"]).available.Nodup) :=
  ⟨by decide,
    (scan_network_invariants edgeoneTarget (fun _ => none) ["1.2.3.4"] ["1.2.3.4"]
      (by decide)).1,
    (scan_network_invariants edgeoneTarget (fun _ => none) ["1.2.3.4"] ["1.2.3.4"]
      (by decide)).2.2.2⟩

/-- C5: the verification pass never changes the primary available-address
output: the primary list is the same whatever the re-probe outcomes and
completion order are, it keeps the size and contents of the available list,
and the pass produces exactly one record per sampled address (`vorder`, the
completion order of the verification futures, is a permutation of the
sample). -/
theorem verification_is_advisory (target : String) (avail : List String)
    (probe probe2 : String → Option Response) (vorder vorder2 : List String)
    (h : vorder.Perm (sample avail)) :
    (main_run target avail probe vorder).primary
      = (main_run target avail probe2 vorder2).primary ∧
    (main_run target avail probe vorder).primary.Perm avail ∧
    (main_run target avail probe vorder).primary.length = avail.length ∧
    (verificationRecords target probe vorder).length = (sample avail).length ∧
    ((verificationRecords target probe vorder).map Prod.fst).Perm (sample avail) := by
  have hperm : (sortIPs avail).Perm avail := List.perm_insertionSort ipLE avail
  refine ⟨rfl, hperm, hperm.length_eq, ?_, ?_⟩
  · rw [verificationRecords, List.length_map, h.length_eq]
  · rw [verificationRecords_map_fst]
    exact h

/-- C5 witness: three available addresses, a re-probe that times out on one
of them; the primary output is unchanged and one record per sample exists. -/
theorem verification_is_advisory_witness :
    (["1.1.1.1", "1.1.1.2", "1.1.1.3"] : List String).Perm
      (sample ["1.1.1.1", "1.1.1.2", "1.1.1.3"]) ∧
    (main_run edgeoneTarget ["1.1.1.1", "1.1.1.2", "1.1.1.3"]
        (fun ip => if ip == "1.1.1.2" then none else some ⟨302, some edgeoneTarget⟩)
        ["1.1.1.1", "1.1.1.2", "1.1.1.3"]).primary.length
      = (["1.1.1.1", "1.1.1.2", "1.1.1.3"] : List String).length ∧
    (verificationRecords edgeoneTarget
        (fun ip => if ip == "1.1.1.2" then none else some ⟨302, some edgeoneTarget⟩)
        ["1.1.1.1", "1.1.1.2", "1.1.1.3"]).length
      = (sample ["1.1.1.1", "1.1.1.2", "1.1.1.3"]).length :=
  ⟨by decide,
    (verification_is_advisory edgeoneTarget ["1.1.1.1", "1.1.1.2", "1.1.1.3"]
      (fun ip => if ip == "1.1.1.2" then none else some ⟨302, some edgeoneTarget⟩)
      (fun ip => if ip == "1.1.1.2" then none else some ⟨302, some edgeoneTarget⟩)
      ["1.1.1.1", "1.1.1.2", "1.1.1.3"] ["1.1.1.1", "1.1.1.2", "1.1.1.3"]
      (by decide)).2.2.1,
    (verification_is_advisory edgeoneTarget ["1.1.1.1", "1.1.1.2", "1.1.1.3"]
      (fun ip => if ip == "1.1.1.2" then none else some ⟨302, some edgeoneTarget⟩)
      (fun ip => if ip == "1.1.1.2" then none else some ⟨302, some edgeoneTarget⟩)
      ["1.1.1.1", "1.1.1.2", "1.1.1.3"] ["1.1.1.1", "1.1.1.2", "1.1.1.3"]
      (by decide)).2.2.2.1⟩

/-- C6 (counterexample to the claim as stated): the confirmed output is
written in thread-pool completion order, not re-sorted.  With the two
available addresses `10.0.0.2` and `10.0.0.10`, both confirming, and the
future of `10.0.0.10` completing first, the saved second output is
`["10.0.0.10", "10.0.0.2"]`, which is not numerically sorted. -/
theorem verified_output_unsorted_counterexample :
    (["10.0.0.10", "10.0.0.2"] : List String).Perm (sample ["10.0.0.2", "10.0.0.10"]) ∧
    verify_redirects edgeoneTarget (fun _ => some ⟨302, some edgeoneTarget⟩)
        ["10.0.0.10", "10.0.0.2"] = ["10.0.0.10", "10.0.0.2"] ∧
    ¬ ipSorted (verify_redirects edgeoneTarget (fun _ => some ⟨302, some edgeoneTarget⟩)
        ["10.0.0.10", "10.0.0.2"]) := by
  refine ⟨by decide, by decide, by decide⟩

/-- C6 (amended): when verification is run, the second output consists of
exactly those sampled addresses whose verification record has
`confirmed = true` — in verification completion order, not necessarily
numerically sorted. -/
theorem verified_output_contents (target : String) (avail : List String)
    (probe : String → Option Response) (vorder : List String)
    (h : vorder.Perm (sample avail)) :
    (verify_redirects target probe vorder).Perm
      ((sample avail).filter (fun ip => (verify_single target ip (probe ip)).2)) ∧
    ∀ ip ∈ verify_redirects target probe vorder,
      (verify_single target ip (probe ip)).2 = true := by
  rw [verify_redirects_eq_filter]
  refine ⟨h.filter _, ?_⟩
  intro ip hip
  exact (List.mem_filter.mp hip).2

/-- C6 witness: the amended contents property at a concrete sample where one
re-probe fails. -/
theorem verified_output_contents_witness :
    (["1.1.1.2", "1.1.1.1"] : List String).Perm (sample ["1.1.1.1", "1.1.1.2"]) ∧
    (verify_redirects edgeoneTarget
        (fun ip => if ip == "1.1.1.2" then none else some ⟨302, some edgeoneTarget⟩)
        ["1.1.1.2", "1.1.1.1"]).Perm
      ((sample ["1.1.1.1", "1.1.1.2"]).filter
        (fun ip => (verify_single edgeoneTarget ip
          ((fun ip => if ip == "1.1.1.2" then none
            else some ⟨302, some edgeoneTarget⟩) ip)).2)) :=
  ⟨by decide,
    (verified_output_contents edgeoneTarget ["1.1.1.1", "1.1.1.2"]
      (fun ip => if ip == "1.1.1.2" then none else some ⟨302, some edgeoneTarget⟩)
      ["1.1.1.2", "1.1.1.1"] (by decide)).1⟩

/-- C9: the verification pass samples exactly the first `min(10, n)` elements
of the numerically sorted available list, is invoked iff at least one
address is available, and re-probes with the identical classification rule
as the primary scan: a sampled address is confirmed exactly when `check_ip`
would classify the same HTTP outcome as `"available"`. -/
theorem verification_sample_spec (target : String) (avail : List String)
    (probe : String → Option Response) (vorder : List String) :
    sample avail = (sortIPs avail).take 10 ∧
    (sample avail).length = min 10 avail.length ∧
    ipSorted (sample avail) ∧
    ((main_run target avail probe vorder).verified.isSome ↔ avail ≠ []) ∧
    ∀ ip result, ((verify_single target ip result).2 = true ↔
      (check_ip target ip result).2 = "available") := by
  have hperm : (sortIPs avail).Perm avail := List.perm_insertionSort ipLE avail
  refine ⟨rfl, ?_, ?_, ?_, ?_⟩
  · rw [sample, List.length_take, hperm.length_eq]
  · exact (List.sorted_insertionSort ipLE avail).sublist (List.take_sublist 10 _)
  · rw [main_run]
    by_cases he : (sortIPs avail).isEmpty
    · have h1 : sortIPs avail = [] := List.isEmpty_iff.mp he
      have h2 : avail = [] := by
        have hp2 := hperm
        rw [h1] at hp2
        exact hp2.symm.eq_nil
      simp [h2, sortIPs]
    · have h1 : sortIPs avail ≠ [] := fun hn => he (by simp [hn])
      have h2 : avail ≠ [] := by
        intro hn
        exact h1 (List.Perm.eq_nil (hn ▸ hperm))
      simp [he, h2]
  · intro ip result
    cases result with
    | none => simp [verify_single, check_ip]
    | some response =>
      simp only [verify_single, check_ip]
      by_cases h1 : response.status_code == 302 && response.location.isSome
      · rw [if_pos h1]
        by_cases h2 : response.location == some target
        · rw [if_pos (by simp_all), h2]
          simp
        · rw [if_neg (by simp_all)]
          simp only [h2]
          constructor
          · intro habs; simp at habs
          · intro habs; simp at habs
      · rw [if_neg h1, if_neg (by simp_all)]
        constructor
        · intro habs; simp at habs
        · intro habs; simp at habs

/-- C7 (amended): the ETA computation never divides by zero (its divisor
`max(avg_speed, 1)` is always positive) and never yields a negative value;
when the average speed is zero no ETA is printed; and when the average speed
is positive the ETA equals `(total − completed) / max(avg_speed, 1)` and —
provided some addresses remain — a finite positive ETA is printed. -/
theorem eta_computation_safe (total_ips completed last_completed : Nat)
    (start_time last_report_time current_time : ℚ)
    (h : completed ≤ total_ips) :
    0 < max (report_progress total_ips completed last_completed
        start_time last_report_time current_time).avg_speed 1 ∧
    0 ≤ (report_progress total_ips completed last_completed
        start_time last_report_time current_time).eta_minutes ∧
    ((report_progress total_ips completed last_completed
        start_time last_report_time current_time).avg_speed = 0 →
      etaShown (report_progress total_ips completed last_completed
        start_time last_report_time current_time) = false) ∧
    (0 < (report_progress total_ips completed last_completed
        start_time last_report_time current_time).avg_speed →
      (report_progress total_ips completed last_completed
          start_time last_report_time current_time).eta_minutes
        = ((total_ips : ℚ) - (completed : ℚ))
          / max (report_progress total_ips completed last_completed
              start_time last_report_time current_time).avg_speed 1) ∧
    (0 < (report_progress total_ips completed last_completed
        start_time last_report_time current_time).avg_speed →
      completed < total_ips →
      etaShown (report_progress total_ips completed last_completed
        start_time last_report_time current_time) = true ∧
      0 < (report_progress total_ips completed last_completed
        start_time last_report_time current_time).eta_minutes) := by
  set r := report_progress total_ips completed last_completed
    start_time last_report_time current_time with hr
  have havg : r.avg_speed
      = if 0 < (current_time - start_time) / 60
        then (completed : ℚ) / ((current_time - start_time) / 60) else 0 := rfl
  have heta : r.eta_minutes
      = if 0 < r.avg_speed
        then ((total_ips : ℚ) - (completed : ℚ)) / max r.avg_speed 1 else 0 := rfl
  have hmax : (0 : ℚ) < max r.avg_speed 1 := lt_max_of_lt_right one_pos
  have hrem : (0 : ℚ) ≤ (total_ips : ℚ) - (completed : ℚ) := by
    rw [sub_nonneg]
    exact_mod_cast h
  have heta_nonneg : 0 ≤ r.eta_minutes := by
    rw [heta]
    by_cases hpos : 0 < r.avg_speed
    · rw [if_pos hpos]
      exact div_nonneg hrem (le_of_lt hmax)
    · rw [if_neg hpos]
  refine ⟨hmax, heta_nonneg, ?_, ?_, ?_⟩
  · intro h0
    rw [etaShown, heta, h0]
    simp
  · intro hpos
    rw [heta, if_pos hpos]
  · intro hpos hlt
    have hrempos : (0 : ℚ) < (total_ips : ℚ) - (completed : ℚ) := by
      rw [sub_pos]
      exact_mod_cast hlt
    have hetapos : 0 < r.eta_minutes := by
      rw [heta, if_pos hpos]
      exact div_pos hrempos hmax
    exact ⟨by rw [etaShown]; simpa using hetapos, hetapos⟩

/-- C7 (counterexample to the claim as stated): at a final report with all
10 of 10 addresses completed after one minute, the average speed is positive
(600 IPs/min) yet no ETA is printed, because the remaining count — and hence
`eta_minutes` — is zero; so "a finite positive ETA is reported whenever
averageSpeed > 0" fails. -/
theorem eta_positive_speed_not_reported :
    0 < (report_progress 10 10 0 0 0 60).avg_speed ∧
    etaShown (report_progress 10 10 0 0 0 60) = false := by
  constructor
  · norm_num [report_progress]
  · norm_num [report_progress, etaShown]

/-- C7 witness: the amended safety properties at a concrete mid-scan report
(50 of 100 completed after one minute). -/
theorem eta_computation_safe_witness :
    (50 : Nat) ≤ 100 ∧
    0 < max (report_progress 100 50 0 0 0 60).avg_speed 1 ∧
    0 ≤ (report_progress 100 50 0 0 0 60).eta_minutes :=
  ⟨by decide,
    (eta_computation_safe 100 50 0 0 0 60 (by decide)).1,
    (eta_computation_safe 100 50 0 0 0 60 (by decide)).2.1⟩

/-- C8: a well-formed CIDR range with mask length at most 30 expands to
exactly `2^(32-mask) - 2` distinct host addresses (network and broadcast
excluded), and a malformed range line is skipped while every other line is
still expanded (removing a malformed line from the input leaves the parse
result unchanged, so the run is not aborted). -/
theorem cidr_expansion (r : String) (net maskLen : Nat)
    (h : ip_network (pyStrip r.data) = some (net, maskLen)) (hm : maskLen ≤ 30) :
    (hostsOf net maskLen).length = 2 ^ (32 - maskLen) - 2 ∧
    (hostsOf net maskLen).Nodup ∧
    parse_ranges [r] = hostsOf net maskLen ∧
    ∀ pre post bad, ip_network (pyStrip bad.data) = none →
      parse_ranges (pre ++ bad :: post) = parse_ranges (pre ++ post) := by
  have hh : hostsOf net maskLen
      = (List.range (2 ^ (32 - maskLen) - 2)).map (fun i => net + 1 + i) := by
    rw [hostsOf, if_pos hm]
  refine ⟨?_, ?_, ?_, ?_⟩
  · rw [hh, List.length_map, List.length_range]
  · rw [hh]
    exact (List.nodup_range _).map (fun i j hij => by omega)
  · rw [parse_ranges_eq]
    simp [rangeHosts, h]
  · intro pre post bad hbad
    rw [parse_ranges_eq, parse_ranges_eq]
    have hb : rangeHosts bad = [] := by
      rw [rangeHosts, hbad]
    simp [hb]

/-- C8 witness: the range `10.0.0.0/30` parses to network number 167772160
with mask length 30 and expands to its 2 host addresses. -/
theorem cidr_expansion_witness :
    ip_network (pyStrip "10.0.0.0/30".data) = some (167772160, 30) ∧
    (hostsOf 167772160 30).length = 2 ^ (32 - 30) - 2 ∧
    (hostsOf 167772160 30).Nodup ∧
    parse_ranges ["10.0.0.0/30"] = hostsOf 167772160 30 :=
  ⟨by decide,
    (cidr_expansion "10.0.0.0/30" 167772160 30 (by decide) (by decide)).1,
    (cidr_expansion "10.0.0.0/30" 167772160 30 (by decide) (by decide)).2.1,
    (cidr_expansion "10.0.0.0/30" 167772160 30 (by decide) (by decide)).2.2.1⟩

/-- C10: every syntactically valid CIDR string with any host bit set below
its mask — a range whose stripped text splits into a well-formed dotted-quad
address `a` and mask length `n` with `a % 2^(32-n) ≠ 0` — is rejected by the
strict-mode `ip_network` (a `ValueError`, here `none`): it contributes zero
addresses (it is not normalized to its network address and expanded), and
wherever it sits in the range list it is skipped while the surrounding
ranges parse as if it were absent. -/
theorem strict_mode_rejects_host_bits (s : String) (addr m : List Char) (a n : Nat)
    (hsplit : splitOnChar '/' (pyStrip s.data) = [addr, m])
    (haddr : parseIPv4 addr = some a)
    (hmask : parseMaskLen m = some n)
    (hbits : a % 2 ^ (32 - n) ≠ 0) :
    ip_network (pyStrip s.data) = none ∧
    rangeHosts s = [] ∧
    ∀ pre post, parse_ranges (pre ++ s :: post) = parse_ranges (pre ++ post) := by
  have hcond : ¬ (n ≤ 32 ∧ a % 2 ^ (32 - n) = 0) := fun hc => hbits hc.2
  have hnet : ip_network (pyStrip s.data) = none := by
    simp only [ip_network, hsplit, haddr, hmask]
    exact if_neg hcond
  have hb : rangeHosts s = [] := by
    rw [rangeHosts, hnet]
  refine ⟨hnet, hb, ?_⟩
  intro pre post
  rw [parse_ranges_eq, parse_ranges_eq]
  simp [hb]

/-- C10 witness: `10.0.0.1/24` splits into the address `10.0.0.1`
(= 167772161) and mask length 24, has host bits set below the mask, is
rejected by `ip_network`, contributes no addresses, and is skipped while the
following range `10.0.0.0/30` is still expanded. -/
theorem strict_mode_rejects_host_bits_witness :
    splitOnChar '/' (pyStrip "10.0.0.1/24".data) = ["10.0.0.1".data, "24".data] ∧
    parseIPv4 "10.0.0.1".data = some 167772161 ∧
    parseMaskLen "24".data = some 24 ∧
    167772161 % 2 ^ (32 - 24) ≠ 0 ∧
    ip_network (pyStrip "10.0.0.1/24".data) = none ∧
    rangeHosts "10.0.0.1/24" = [] ∧
    parse_ranges ([] ++ "10.0.0.1/24" :: ["10.0.0.0/30"])
      = parse_ranges ([] ++ ["10.0.0.0/30"]) :=
  ⟨by decide, by decide, by decide, by decide,
    (strict_mode_rejects_host_bits "10.0.0.1/24" "10.0.0.1".data "24".data 167772161 24
      (by decide) (by decide) (by decide) (by decide)).1,
    (strict_mode_rejects_host_bits "10.0.0.1/24" "10.0.0.1".data "24".data 167772161 24
      (by decide) (by decide) (by decide) (by decide)).2.1,
    (strict_mode_rejects_host_bits "10.0.0.1/24" "10.0.0.1".data "24".data 167772161 24
      (by decide) (by decide) (by decide) (by decide)).2.2 [] ["10.0.0.0/30"]⟩

end EOScan
